import Mathlib

/-!
A verification development for the `gha-remove-artifacts` cleanup script
(`src/index.js`).  The script is shallowly embedded below:

* JavaScript numbers are modelled as `ℚ` (`Option ℚ` where `NaN` can arise);
  the values occurring here (integer counters, ms timestamps, decimal input
  literals) are exactly representable, and IEEE infinities/rounding are not
  modelled.
* `moment` timestamps are `Option ℚ` — milliseconds since the epoch, `none`
  for an invalid moment.  `moment#isBefore` returns `false` whenever either
  side is invalid, and `moment#subtract` with an unrecognised unit or a
  `NaN` amount is a no-op (the duration buckets sit behind falsy guards in
  `addSubtract`, so a `NaN` field never updates the instant), leaving the
  moment valid.  Calendar-dependent units (months/quarters/years) are
  outside the model; the fixed-length units are modelled exactly (no DST,
  matching UTC).
* The asynchronous fan-out is modelled run-to-completion in listing order:
  the script's shared skip counter is threaded sequentially through the
  runs' artifact lists (the event-loop interleaving is the documented race;
  all statements below are about this canonical listing order).
* Fallible API calls are `Except String` values supplied by a `World`;
  `run` mirrors the promise chain of `src/index.js`, and the final
  `run().catch(err => core.setFailed(err.toString()))` is `processExit`.
-/

/-! ## JavaScript `Number(string)` coercion (decimal and hex literals) -/

/-- Numeric value of a list of decimal digit characters (most significant
first); the empty list yields `0`. -/
def digitsVal (cs : List Char) : ℕ :=
  cs.foldl (fun n c => 10 * n + (c.toNat - 48)) 0

/-- Hexadecimal digit test. -/
def isHexDigit (c : Char) : Bool :=
  c.isDigit || ('a' ≤ c && c ≤ 'f') || ('A' ≤ c && c ≤ 'F')

/-- Value of one hexadecimal digit character. -/
def hexDigitVal (c : Char) : ℕ :=
  if c.isDigit then c.toNat - 48
  else if 'a' ≤ c ∧ c ≤ 'f' then c.toNat - 87
  else c.toNat - 55

/-- Numeric value of a list of hexadecimal digit characters. -/
def hexVal (cs : List Char) : ℕ :=
  cs.foldl (fun n c => 16 * n + hexDigitVal c) 0

/-- Decimal mantissa: `digits`, `digits.digits`, `digits.` or `.digits`.
`none` models `NaN`. -/
def parseMantissa (cs : List Char) : Option ℚ :=
  let ip := cs.takeWhile Char.isDigit
  match cs.drop ip.length with
  | [] => if ip.isEmpty then none else some (digitsVal ip : ℚ)
  | '.' :: fp =>
    if fp.all Char.isDigit ∧ ¬(ip.isEmpty ∧ fp.isEmpty) then
      some ((digitsVal ip : ℚ) + (digitsVal fp : ℚ) / (10 : ℚ) ^ fp.length)
    else none
  | _ => none

/-- Exponent part after `e`/`E`: optional sign then digits. -/
def parseExp (cs : List Char) : Option ℤ :=
  match cs with
  | '+' :: ds => if ds ≠ [] ∧ ds.all Char.isDigit then some (digitsVal ds : ℤ) else none
  | '-' :: ds => if ds ≠ [] ∧ ds.all Char.isDigit then some (-(digitsVal ds : ℤ)) else none
  | ds => if ds ≠ [] ∧ ds.all Char.isDigit then some (digitsVal ds : ℤ) else none

/-- Ten to an integer power `e`, as a rational. -/
def qpow10 (e : ℤ) : ℚ :=
  match e with
  | .ofNat n => (10 : ℚ) ^ n
  | .negSucc n => 1 / (10 : ℚ) ^ (n + 1)

/-- Unsigned decimal literal with optional exponent. -/
def parseDec (cs : List Char) : Option ℚ :=
  let mant := cs.takeWhile (fun c => c != 'e' && c != 'E')
  match cs.drop mant.length with
  | [] => parseMantissa mant
  | _ :: expPart =>
    match parseMantissa mant, parseExp expPart with
    | some m, some e => some (m * qpow10 e)
    | _, _ => none

/-- Model of JavaScript's `Number(s)` string-to-number coercion on decimal
and hexadecimal literals: `none` is `NaN`, the empty (or all-whitespace)
string coerces to `0`. -/
def jsNumber (s : String) : Option ℚ :=
  let t := s.trim
  if t = "" then some 0
  else
    match t.toList with
    | '0' :: 'x' :: rest =>
      if rest ≠ [] ∧ rest.all isHexDigit then some (hexVal rest : ℚ) else none
    | '0' :: 'X' :: rest =>
      if rest ≠ [] ∧ rest.all isHexDigit then some (hexVal rest : ℚ) else none
    | '+' :: rest => parseDec rest
    | '-' :: rest => (parseDec rest).map (fun q => -q)
    | cs => parseDec cs

/-! ## `moment` model

A moment in time is `Option ℚ`: milliseconds since the epoch, or `none` for
an invalid moment (`NaN`-based date). -/

/-- Model of `moment#isBefore`: a strict comparison that is `false` whenever either
moment is invalid. -/
def momentIsBefore (a b : Option ℚ) : Bool :=
  match a, b with
  | some x, some y => decide (x < y)
  | _, _ => false

/-- Model of `moment`'s `absRound` (used for day/week amounts): round half away from
zero, i.e. `Math.round(Math.abs(x))` with the sign restored. -/
def jsAbsRound (q : ℚ) : ℤ :=
  if q < 0 then -⌊-q + 1 / 2⌋ else ⌊q + 1 / 2⌋

/-- Milliseconds per unit for the units `moment` adds directly to the
millisecond bucket. -/
def msBucketUnit (u : String) : Option ℚ :=
  if u = "ms" ∨ u = "millisecond" ∨ u = "milliseconds" then some 1
  else if u = "s" ∨ u = "second" ∨ u = "seconds" then some 1000
  else if u = "m" ∨ u = "minute" ∨ u = "minutes" then some 60000
  else if u = "h" ∨ u = "hour" ∨ u = "hours" then some 3600000
  else none

/-- Day multiplier for the units `moment` routes through its day bucket
(rounded via `absRound`; one day is a fixed 86400000 ms here, as in UTC). -/
def dayUnitDays (u : String) : Option ℚ :=
  if u = "d" ∨ u = "day" ∨ u = "days" then some 1
  else if u = "w" ∨ u = "week" ∨ u = "weeks" then some 7
  else none

/-- Model of `moment(now).subtract(amount, unit)`.  An unrecognised (or
absent) unit makes the subtraction a no-op (`moment` builds a zero duration
from an object with no known keys); a `NaN` amount on a recognised unit is
a no-op as well — the resulting `NaN` duration field is falsy, so
`addSubtract` never touches the instant and the moment stays valid.
Calendar units (months/years) are not modelled. -/
def momentSubtract (now : ℚ) (amount : Option ℚ) (unit : Option String) : Option ℚ :=
  match unit with
  | none => some now
  | some u =>
    match msBucketUnit u with
    | some f =>
      match amount with
      | none => some now
      | some q => some (now - q * f)
    | none =>
      match dayUnitDays u with
      | some mult =>
        match amount with
        | none => some now
        | some q => some (now - (jsAbsRound (q * mult) : ℚ) * 86400000)
      | none => some now

/-! ## Configuration resolution (`getConfigs`) -/

/-- Model of the `yn` package's lenient boolean parsing, as used for
`skip-tags`; anything unrecognised is `undefined`, which the script only
ever uses truthily, hence `false` here. -/
def ynModel (s : String) : Bool :=
  let t := s.trim.toLower
  (t == "y") || (t == "yes") || (t == "true") || (t == "1") || (t == "on")

/-- The raw string inputs read by `getConfigs`: the `GITHUB_REPOSITORY`
environment variable and the three action inputs.  An absent optional input
is the empty string (as returned by `core.getInput`). -/
structure RawInputs where
  githubRepository : String
  age : String
  skipTags : String
  skipRecent : String
deriving DecidableEq

/-- The configuration object returned by `getConfigs`.  `owner`/`repo` are
`Option` because destructuring a malformed `owner/name` string leaves the
second component `undefined`. -/
structure Configs where
  owner : Option String
  repo : Option String
  perPage : ℕ
  maxAge : Option ℚ
  skipTags : Bool
  skipRecent : ℚ
  retriesEnabled : Bool
  branchToConsider : String
deriving DecidableEq

/-- Model of `getConfigs` from `src/index.js`: split the repository identity on
`"/"`, split the age input on `" "` into amount and unit and subtract it
from `now`, reject a non-empty `skip-recent` that coerces to `NaN` with the
script's error message, and assemble the configuration object. -/
def getConfigs (now : ℚ) (inp : RawInputs) : Except String Configs :=
  let parts := inp.githubRepository.splitOn "/"
  let ageParts := inp.age.splitOn " "
  let maxAge := momentSubtract now (jsNumber ((ageParts[0]?).getD "")) ageParts[1]?
  if inp.skipRecent ≠ "" ∧ jsNumber inp.skipRecent = none then
    .error "skip-recent option must be type of number."
  else
    .ok
      { owner := parts[0]?
        repo := parts[1]?
        perPage := 100
        maxAge := maxAge
        skipTags := ynModel inp.skipTags
        skipRecent := (jsNumber inp.skipRecent).getD 0
        retriesEnabled := true
        branchToConsider := "master" }

/-! ## Workflow runs, artifacts, and the paginated listing -/

/-- A workflow run as consumed by the script: id, head commit sha, creation
timestamp (ms since epoch). -/
structure WorkflowRun where
  id : ℕ
  head_sha : String
  created_at : ℚ
deriving DecidableEq

/-- An artifact as consumed by the script: id, name, creation timestamp. -/
structure Artifact where
  id : ℕ
  name : String
  created_at : ℚ
deriving DecidableEq

/-- Model of `isTooOld` from `src/index.js`: a run is too old when its creation
instant is strictly before `moment.utc().subtract(10, "days")`. -/
def isTooOld (now : ℚ) (workflowRun : WorkflowRun) : Bool :=
  momentIsBefore (some workflowRun.created_at) (some (now - 10 * 86400000))

/-- Model of `octokit.paginate` applied to the runs request with the script's
callback: every fetched page is appended whole to the result, and `done()`
is called — stopping any further fetch — as soon as the current page
contains a run satisfying `p` (`data.find(isTooOld)` is truthy). -/
def paginateUntil (p : WorkflowRun → Bool) : List (List WorkflowRun) → List WorkflowRun
  | [] => []
  | page :: rest =>
    if page.any p then page else page ++ paginateUntil p rest

/-! ## Run-level filtering -/

/-- Membership of a head commit in the tagged-commit list; `none` models the
`undefined` the script leaves when `skip-tags` is inactive, in which case the
short-circuiting `&&` never evaluates the membership test. -/
def taggedContains (tagged : Option (List String)) (sha : String) : Bool :=
  match tagged with
  | some l => l.contains sha
  | none => false

/-- Outcome of the run-level filter for one workflow run. -/
inductive RunDecision where
  | skipTagged
  | skipTooOld
  | examine
deriving DecidableEq

/-- The run-level filter of `src/index.js` (the `workflowRuns.filter`
callback), keeping the two skip branches in source order: the tag check is
evaluated first, the 10-day check second. -/
def classifyRun (skipTags : Bool) (tagged : Option (List String)) (now : ℚ)
    (r : WorkflowRun) : RunDecision :=
  if skipTags && taggedContains tagged r.head_sha then .skipTagged
  else if isTooOld now r then .skipTooOld
  else .examine

/-! ## Per-artifact filtering (the shared skip counter) -/

/-- One evaluation of the artifact `filter` callback at shared-counter value
`counter`: the recent-count exclusion (`configs.skipRecent` truthy and
greater than the counter) is checked first and short-circuits — returning
`false` (keep, not deleted) and incrementing the counter; otherwise the
age check `createdAt.isBefore(configs.maxAge)` decides.  Returns
(selected-for-deletion, new counter). -/
def artifactDecision (skipRecent : ℚ) (maxAge : Option ℚ) (counter : ℕ)
    (a : Artifact) : Bool × ℕ :=
  if skipRecent ≠ 0 ∧ (counter : ℚ) < skipRecent then
    (false, counter + 1)
  else
    (momentIsBefore (some a.created_at) maxAge, counter)

/-- Model of `artifacts.filter(...)` over one run's artifact list, threading the
shared `skippedArtifactsCounter`: returns the artifacts selected for
deletion and the updated counter. -/
def filterArtifacts (skipRecent : ℚ) (maxAge : Option ℚ) :
    List Artifact → ℕ → List Artifact × ℕ
  | [], counter => ([], counter)
  | a :: as, counter =>
    let d := artifactDecision skipRecent maxAge counter a
    let rest := filterArtifacts skipRecent maxAge as d.2
    (if d.1 then a :: rest.1 else rest.1, rest.2)

/-- The artifact filter applied across the whole scan: each run's artifact
list is filtered in listing order with the single shared counter threaded
through.  Returns the per-run selected lists and the final counter. -/
def scanRuns (skipRecent : ℚ) (maxAge : Option ℚ) :
    List (List Artifact) → ℕ → List (List Artifact) × ℕ
  | [], counter => ([], counter)
  | arts :: rest, counter =>
    let f := filterArtifacts skipRecent maxAge arts counter
    let r := scanRuns skipRecent maxAge rest f.2
    (f.1 :: r.1, r.2)

/-! ## The full invocation (`run`) over an abstract world -/

/-- Everything the environment supplies to one invocation: the raw inputs,
the current instant, and the outcomes of the four remote capabilities.
`artifactsResult` is indexed by run id, `deleteResult` (success?) by
artifact id. -/
structure World where
  inputs : RawInputs
  now : ℚ
  tagsResult : Except String (List String)
  runPages : Except String (List (List WorkflowRun))
  artifactsResult : ℕ → Except String (List Artifact)
  deleteResult : ℕ → Bool

/-- Observable outcome of a successful invocation: the ids of runs whose
artifacts were listed, and one entry per deletion attempt —
(artifact id, artifact name, success?); a `false` entry is the logged and
swallowed per-artifact failure. -/
structure Trace where
  examined : List ℕ
  attempts : List (ℕ × String × Bool)
deriving DecidableEq

/-- Stage 2: `getTaggedCommits` is awaited only when `skip-tags` is active;
its failure is logged and re-thrown.  Otherwise `taggedCommits` stays
`undefined` (`none`). -/
def tagsStage (cfg : Configs) (tagsResult : Except String (List String)) :
    Except String (Option (List String)) :=
  if cfg.skipTags then tagsResult.map some else .ok none

/-- The runs surviving the run-level filter, out of the early-terminated
pagination of `pages`. -/
def keptRunsCalc (skipTags : Bool) (tagged : Option (List String)) (now : ℚ)
    (pages : List (List WorkflowRun)) : List WorkflowRun :=
  (paginateUntil (isTooOld now) pages).filter
    (fun r => decide (classifyRun skipTags tagged now r = .examine))

/-- The per-run artifact pipeline over the surviving runs, in listing order:
list the run's artifacts (a rejection propagates, like any rejected promise
under `Promise.all`), filter them with the shared counter, and issue one
deletion attempt per selected artifact whose failure is caught and merely
recorded. -/
def fanOut (maxAge : Option ℚ) (skipRecent : ℚ)
    (artifacts : ℕ → Except String (List Artifact)) (deleteOk : ℕ → Bool) :
    List WorkflowRun → ℕ → Except String (List (ℕ × String × Bool))
  | [], _ => .ok []
  | r :: rs, counter =>
    match artifacts r.id with
    | .error e => .error e
    | .ok arts =>
      let f := filterArtifacts skipRecent maxAge arts counter
      match fanOut maxAge skipRecent artifacts deleteOk rs f.2 with
      | .error e => .error e
      | .ok rest =>
        .ok ((f.1.map (fun a => (a.id, a.name, deleteOk a.id))) ++ rest)

/-- The deletion-attempt plan of the fan-out: same traversal as `fanOut`,
but recording only (artifact id, artifact name) — the part of the outcome
that cannot depend on whether the individual delete requests succeed. -/
def fanOutPlan (maxAge : Option ℚ) (skipRecent : ℚ)
    (artifacts : ℕ → Except String (List Artifact)) :
    List WorkflowRun → ℕ → Except String (List (ℕ × String))
  | [], _ => .ok []
  | r :: rs, counter =>
    match artifacts r.id with
    | .error e => .error e
    | .ok arts =>
      let f := filterArtifacts skipRecent maxAge arts counter
      match fanOutPlan maxAge skipRecent artifacts rs f.2 with
      | .error e => .error e
      | .ok rest => .ok ((f.1.map (fun a => (a.id, a.name))) ++ rest)

/-- Model of `run()` from `src/index.js`: resolve the configuration, fetch the tagged
commits when requested, paginate the workflow runs with the 10-day early
stop, filter the runs, and fan out over their artifacts. -/
def run (w : World) : Except String Trace :=
  match getConfigs w.now w.inputs with
  | .error e => .error e
  | .ok cfg =>
    match tagsStage cfg w.tagsResult with
    | .error e => .error e
    | .ok tagged =>
      match w.runPages with
      | .error e => .error e
      | .ok pages =>
        let kept := keptRunsCalc cfg.skipTags tagged w.now pages
        match fanOut cfg.maxAge cfg.skipRecent w.artifactsResult w.deleteResult kept 0 with
        | .error e => .error e
        | .ok attempts => .ok ⟨kept.map WorkflowRun.id, attempts⟩

/-- The runs whose artifacts `run` lists, as a function of the world (empty
when an earlier stage fails). -/
def keptRunsOf (w : World) : List WorkflowRun :=
  match getConfigs w.now w.inputs with
  | .error _ => []
  | .ok cfg =>
    match tagsStage cfg w.tagsResult, w.runPages with
    | .ok tagged, .ok pages => keptRunsCalc cfg.skipTags tagged w.now pages
    | _, _ => []

/-- Model of `run().catch(err => core.setFailed(err.toString()))`: `some e` is the
failing exit (non-zero, message `e`), `none` the clean zero exit. -/
def processExit (w : World) : Option String :=
  match run w with
  | .ok _ => none
  | .error e => some e

/-- Forget the per-attempt success bit of an invocation outcome, keeping
which runs were examined and which artifacts got a deletion attempt. -/
def stripDelete (r : Except String Trace) : Except String (List ℕ × List (ℕ × String)) :=
  r.map (fun t => (t.examined, t.attempts.map (fun x => (x.1, x.2.1))))

/-- The age check of the artifact filter in isolation: selected for deletion
when created strictly before the cutoff. -/
def ageSelected (maxAge : Option ℚ) (a : Artifact) : Bool :=
  momentIsBefore (some a.created_at) maxAge

/-! ## Supporting lemmas -/

theorem filterArtifacts_ge (q : ℚ) (m : Option ℚ) (l : List Artifact) (c : ℕ)
    (h : q ≤ (c : ℚ)) :
    filterArtifacts q m l c = (l.filter (ageSelected m), c) := by
  induction l with
  | nil => simp [filterArtifacts]
  | cons a as ih =>
    have hcond : ¬(q ≠ 0 ∧ (c : ℚ) < q) := by
      rintro ⟨-, hlt⟩
      exact absurd (lt_of_le_of_lt h hlt) (lt_irrefl _)
    simp only [filterArtifacts, artifactDecision, if_neg hcond, ih, List.filter_cons]
    cases hb : ageSelected m a <;> simp [ageSelected] at hb ⊢ <;> simp [hb]

theorem filterArtifacts_nat (N : ℕ) (m : Option ℚ) (l : List Artifact) :
    ∀ c : ℕ, c ≤ N →
      filterArtifacts (N : ℚ) m l c =
        ((l.drop (N - c)).filter (ageSelected m), min N (c + l.length)) := by
  induction l with
  | nil =>
    intro c hc
    simp [filterArtifacts, Nat.min_eq_right hc]
  | cons a as ih =>
    intro c hc
    by_cases hlt : c < N
    · have hN : (N : ℚ) ≠ 0 := by
        have : 0 < N := Nat.pos_of_ne_zero (by omega)
        exact_mod_cast this.ne'
      have hcq : (c : ℚ) < (N : ℚ) := by exact_mod_cast hlt
      have hstep : N - c = (N - (c + 1)) + 1 := by omega
      simp only [filterArtifacts, artifactDecision, if_pos (And.intro hN hcq)]
      rw [ih (c + 1) hlt]
      refine Prod.ext ?_ ?_
      · simp [hstep, List.drop_succ_cons]
      · simp; omega
    · have hc' : c = N := by omega
      subst hc'
      rw [filterArtifacts_ge _ _ _ _ (le_refl _)]
      refine Prod.ext ?_ ?_
      · simp [Nat.sub_self]
      · simp

theorem filterArtifacts_append (q : ℚ) (m : Option ℚ) (l₁ l₂ : List Artifact) (c : ℕ) :
    filterArtifacts q m (l₁ ++ l₂) c =
      ((filterArtifacts q m l₁ c).1 ++
          (filterArtifacts q m l₂ (filterArtifacts q m l₁ c).2).1,
        (filterArtifacts q m l₂ (filterArtifacts q m l₁ c).2).2) := by
  induction l₁ generalizing c with
  | nil => simp [filterArtifacts]
  | cons a as ih =>
    simp only [List.cons_append, filterArtifacts]
    cases hd : (artifactDecision q m c a).1 <;> simp [ih]

theorem scanRuns_flatten (q : ℚ) (m : Option ℚ) (ls : List (List Artifact)) (c : ℕ) :
    (scanRuns q m ls c).1.flatten = (filterArtifacts q m ls.flatten c).1 ∧
      (scanRuns q m ls c).2 = (filterArtifacts q m ls.flatten c).2 := by
  induction ls generalizing c with
  | nil => simp [scanRuns, filterArtifacts]
  | cons l rest ih =>
    obtain ⟨h1, h2⟩ := ih (filterArtifacts q m l c).2
    simp [scanRuns, List.flatten_cons, filterArtifacts_append, h1, h2]

theorem paginateUntil_eq (p : WorkflowRun → Bool) (pages : List (List WorkflowRun)) :
    paginateUntil p pages =
      (pages.take (pages.findIdx (fun pg => pg.any p) + 1)).flatten := by
  induction pages with
  | nil => simp [paginateUntil]
  | cons page rest ih =>
    by_cases h : page.any p
    · simp [paginateUntil, h, List.findIdx_cons]
    · simp [paginateUntil, h, List.findIdx_cons, ih]

theorem fanOut_eq_plan (m : Option ℚ) (q : ℚ)
    (arts : ℕ → Except String (List Artifact)) (d : ℕ → Bool)
    (rs : List WorkflowRun) (c : ℕ) :
    fanOut m q arts d rs c =
      (fanOutPlan m q arts rs c).map (fun l => l.map (fun x => (x.1, x.2, d x.1))) := by
  induction rs generalizing c with
  | nil => rfl
  | cons r rest ih =>
    simp only [fanOut, fanOutPlan]
    cases arts r.id with
    | error e => simp [Except.map]
    | ok l =>
      dsimp only
      rw [ih (filterArtifacts q m l c).2]
      cases fanOutPlan m q arts rest (filterArtifacts q m l c).2 with
      | error e => simp [Except.map]
      | ok rest' => simp [Except.map, List.map_append, List.map_map, Function.comp]

theorem fanOutPlan_isOk (m : Option ℚ) (q : ℚ)
    (arts : ℕ → Except String (List Artifact))
    (rs : List WorkflowRun) (c : ℕ)
    (h : ∀ r ∈ rs, (arts r.id).isOk = true) :
    (fanOutPlan m q arts rs c).isOk = true := by
  induction rs generalizing c with
  | nil => rfl
  | cons r rest ih =>
    have hr := h r (List.mem_cons_self r rest)
    cases ha : arts r.id with
    | error e => rw [ha] at hr; simp [Except.isOk, Except.toBool] at hr
    | ok l =>
      simp only [fanOutPlan, ha]
      have hrec := ih (filterArtifacts q m l c).2
        (fun x hx => h x (List.mem_cons_of_mem _ hx))
      cases hf : fanOutPlan m q arts rest (filterArtifacts q m l c).2 with
      | error e => rw [hf] at hrec; simp [Except.isOk, Except.toBool] at hrec
      | ok l' => rfl

theorem fanOut_isOk (m : Option ℚ) (q : ℚ)
    (arts : ℕ → Except String (List Artifact)) (d : ℕ → Bool)
    (rs : List WorkflowRun) (c : ℕ)
    (h : ∀ r ∈ rs, (arts r.id).isOk = true) :
    (fanOut m q arts d rs c).isOk = true := by
  rw [fanOut_eq_plan]
  have := fanOutPlan_isOk m q arts rs c h
  cases hp : fanOutPlan m q arts rs c with
  | error e => rw [hp] at this; simp [Except.isOk, Except.toBool] at this
  | ok l => rfl

theorem fanOutPlan_congr (m : Option ℚ) (q : ℚ)
    (f g : ℕ → Except String (List Artifact))
    (rs : List WorkflowRun) :
    ∀ c : ℕ, (∀ r ∈ rs, f r.id = g r.id) →
      fanOutPlan m q f rs c = fanOutPlan m q g rs c := by
  induction rs with
  | nil => intro c h; rfl
  | cons r rest ih =>
    intro c h
    simp only [fanOutPlan, h r (List.mem_cons_self r rest)]
    cases g r.id with
    | error e => rfl
    | ok l =>
      dsimp only
      rw [ih _ (fun x hx => h x (List.mem_cons_of_mem _ hx))]

theorem fanOut_congr (m : Option ℚ) (q : ℚ)
    (f g : ℕ → Except String (List Artifact)) (d : ℕ → Bool)
    (rs : List WorkflowRun) (c : ℕ) (h : ∀ r ∈ rs, f r.id = g r.id) :
    fanOut m q f d rs c = fanOut m q g d rs c := by
  rw [fanOut_eq_plan, fanOut_eq_plan, fanOutPlan_congr m q f g rs c h]

theorem stripDelete_isOk (r : Except String Trace) :
    (stripDelete r).isOk = r.isOk := by
  cases r <;> rfl

theorem run_stripDelete (w : World) (d₁ d₂ : ℕ → Bool) :
    stripDelete (run { w with deleteResult := d₁ }) =
      stripDelete (run { w with deleteResult := d₂ }) := by
  simp only [run]
  cases getConfigs w.now w.inputs with
  | error e => rfl
  | ok cfg =>
    dsimp only
    cases tagsStage cfg w.tagsResult with
    | error e => rfl
    | ok tagged =>
      dsimp only
      cases w.runPages with
      | error e => rfl
      | ok pages =>
        dsimp only
        rw [fanOut_eq_plan, fanOut_eq_plan]
        cases fanOutPlan cfg.maxAge cfg.skipRecent w.artifactsResult
            (keptRunsCalc cfg.skipTags tagged w.now pages) 0 with
        | error e => rfl
        | ok l =>
          simp [Except.map, stripDelete, List.map_map, Function.comp]

theorem keptRunsOf_eq (w : World) (cfg : Configs) (tagged : Option (List String))
    (pages : List (List WorkflowRun))
    (hc : getConfigs w.now w.inputs = .ok cfg)
    (ht : tagsStage cfg w.tagsResult = .ok tagged)
    (hp : w.runPages = .ok pages) :
    keptRunsOf w = keptRunsCalc cfg.skipTags tagged w.now pages := by
  simp [keptRunsOf, hc, ht, hp]

theorem run_isOk_of (w : World) (cfg : Configs) (tagged : Option (List String))
    (pages : List (List WorkflowRun))
    (hc : getConfigs w.now w.inputs = .ok cfg)
    (ht : tagsStage cfg w.tagsResult = .ok tagged)
    (hp : w.runPages = .ok pages)
    (ha : ∀ r ∈ keptRunsCalc cfg.skipTags tagged w.now pages,
        (w.artifactsResult r.id).isOk = true) :
    (run w).isOk = true := by
  simp only [run, hc, ht, hp]
  have hall := fanOut_isOk cfg.maxAge cfg.skipRecent w.artifactsResult w.deleteResult
    (keptRunsCalc cfg.skipTags tagged w.now pages) 0 ha
  cases hf : fanOut cfg.maxAge cfg.skipRecent w.artifactsResult w.deleteResult
      (keptRunsCalc cfg.skipTags tagged w.now pages) 0 with
  | error e => rw [hf] at hall; simp [Except.isOk, Except.toBool] at hall
  | ok l => rfl

theorem run_artifacts_congr (w : World)
    (f g : ℕ → Except String (List Artifact))
    (h : ∀ r ∈ keptRunsOf w, f r.id = g r.id) :
    run { w with artifactsResult := f } = run { w with artifactsResult := g } := by
  simp only [run]
  cases hc : getConfigs w.now w.inputs with
  | error e => rfl
  | ok cfg =>
    dsimp only
    cases ht : tagsStage cfg w.tagsResult with
    | error e => rfl
    | ok tagged =>
      dsimp only
      cases hp : w.runPages with
      | error e => rfl
      | ok pages =>
        dsimp only
        have hk := keptRunsOf_eq w cfg tagged pages hc ht hp
        rw [fanOut_congr cfg.maxAge cfg.skipRecent f g w.deleteResult _ 0 (hk ▸ h)]

theorem run_examined (w : World) (t : Trace) (h : run w = .ok t) :
    t.examined = (keptRunsOf w).map WorkflowRun.id := by
  simp only [run] at h
  cases hc : getConfigs w.now w.inputs with
  | error e => rw [hc] at h; exact Except.noConfusion h
  | ok cfg =>
    rw [hc] at h; dsimp only at h
    cases ht : tagsStage cfg w.tagsResult with
    | error e => rw [ht] at h; exact Except.noConfusion h
    | ok tagged =>
      rw [ht] at h; dsimp only at h
      cases hp : w.runPages with
      | error e => rw [hp] at h; exact Except.noConfusion h
      | ok pages =>
        rw [hp] at h; dsimp only at h
        cases hf : fanOut cfg.maxAge cfg.skipRecent w.artifactsResult w.deleteResult
            (keptRunsCalc cfg.skipTags tagged w.now pages) 0 with
        | error e => rw [hf] at h; exact Except.noConfusion h
        | ok attempts =>
          rw [hf] at h; dsimp only at h
          injection h with h2
          subst h2
          simp [keptRunsOf, hc, ht, hp]

theorem getConfigs_skipRecent_some (now : ℚ) (inp : RawInputs) (q : ℚ)
    (hq : jsNumber inp.skipRecent = some q) :
    (getConfigs now inp).map Configs.skipRecent = .ok q := by
  have hcond : ¬(inp.skipRecent ≠ "" ∧ jsNumber inp.skipRecent = none) := by
    rintro ⟨-, hn⟩
    rw [hq] at hn
    exact Option.noConfusion hn
  simp [getConfigs, hcond, hq, Except.map]

/-! ## The claims -/

/-- C1: the per-artifact filter evaluates the recent-count exclusion before
the age check and short-circuits at the first true condition: with
skip-recent set to `N`, the first `N` artifacts encountered in listing
order across the whole scan (via the shared counter) are skipped regardless
of their age, and only artifacts encountered after the counter reaches `N`
are subjected to the age filter. -/
theorem recent_count_precedes_age (N : ℕ) (m : Option ℚ) (ls : List (List Artifact)) :
    (scanRuns (N : ℚ) m ls 0).1.flatten =
      (ls.flatten.drop N).filter (ageSelected m) ∧
    ∀ (c : ℕ) (a : Artifact),
      artifactDecision (N : ℚ) m c a =
        if c < N then (false, c + 1)
        else (momentIsBefore (some a.created_at) m, c) := by
  constructor
  · obtain ⟨h1, -⟩ := scanRuns_flatten (N : ℚ) m ls 0
    rw [h1, filterArtifacts_nat N m ls.flatten 0 (Nat.zero_le N)]
    simp
  · intro c a
    simp only [artifactDecision, ne_eq, Nat.cast_eq_zero, Nat.cast_lt]
    by_cases h : c < N
    · rw [if_pos ⟨by omega, h⟩, if_pos h]
    · rw [if_neg (fun hx => h hx.2), if_neg h]

/-- C2: an artifact not excluded by the recent-count rule is selected for
deletion iff its creation timestamp is strictly before the cutoff; at
`createdAt = cutoff` it is kept. -/
theorem age_cutoff_strict (q : ℚ) (c : ℕ) (m : ℚ) (a : Artifact)
    (h : ¬(q ≠ 0 ∧ (c : ℚ) < q)) :
    ((artifactDecision q (some m) c a).1 = true ↔ a.created_at < m) ∧
    (a.created_at = m → (artifactDecision q (some m) c a).1 = false) := by
  simp only [artifactDecision, if_neg h]
  constructor
  · simp [momentIsBefore]
  · intro he
    simp [momentIsBefore, he]

theorem age_cutoff_strict_witness :
    ¬((0 : ℚ) ≠ 0 ∧ ((0 : ℕ) : ℚ) < 0) ∧
    (artifactDecision 0 (some 5) 0 ⟨1, "a", 5⟩).1 = false := by
  have h : ¬((0 : ℚ) ≠ 0 ∧ ((0 : ℕ) : ℚ) < 0) := by simp
  exact ⟨h, (age_cutoff_strict 0 0 5 ⟨1, "a", 5⟩ h).2 rfl⟩

/-- C3: a run is "too old" iff it was created strictly before the current
UTC instant minus a fixed 10-day window (no configured threshold appears),
and pagination stops on the first page containing any such run while still
returning that entire page, including the too-old runs on it. -/
theorem too_old_pagination_stop (now : ℚ) (pages : List (List WorkflowRun)) :
    (∀ r : WorkflowRun, isTooOld now r = true ↔ r.created_at < now - 10 * 86400000) ∧
    paginateUntil (isTooOld now) pages =
      (pages.take (pages.findIdx (fun pg => pg.any (isTooOld now)) + 1)).flatten := by
  constructor
  · intro r
    simp [isTooOld, momentIsBefore]
  · exact paginateUntil_eq (isTooOld now) pages

theorem too_old_pagination_stop_witness :
    isTooOld 0 ⟨1, "s", -864000001⟩ = true :=
  ((too_old_pagination_stop 0 []).1 ⟨1, "s", -864000001⟩).mpr (by norm_num)

/-- C4: the run-level filter excludes a run (no artifact-listing call) iff
tag-skip is active and its head commit is tagged, or it is too old, checked
in that order; with tag-skip inactive the membership test short-circuits to
"not excluded" whatever the tagged set is. -/
theorem run_level_filter :
    (∀ (st : Bool) (tg : Option (List String)) (now : ℚ) (r : WorkflowRun),
        classifyRun st tg now r ≠ .examine ↔
          ((st = true ∧ taggedContains tg r.head_sha = true) ∨ isTooOld now r = true)) ∧
    (∀ (st : Bool) (tg : Option (List String)) (now : ℚ) (r : WorkflowRun),
        classifyRun st tg now r = .skipTagged ↔
          (st = true ∧ taggedContains tg r.head_sha = true)) ∧
    (∀ (tg : Option (List String)) (now : ℚ) (r : WorkflowRun),
        classifyRun false tg now r = classifyRun false none now r) ∧
    (∀ (w : World) (f g : ℕ → Except String (List Artifact)),
        (∀ r ∈ keptRunsOf w, f r.id = g r.id) →
          run { w with artifactsResult := f } = run { w with artifactsResult := g }) ∧
    (∀ (w : World) (t : Trace), run w = .ok t →
        t.examined = (keptRunsOf w).map WorkflowRun.id) := by
  refine ⟨?_, ?_, ?_, fun w f g h => run_artifacts_congr w f g h,
    fun w t h => run_examined w t h⟩
  · intro st tg now r
    cases st <;> cases htc : taggedContains tg r.head_sha <;>
      cases hold : isTooOld now r <;> simp [classifyRun, htc, hold]
  · intro st tg now r
    cases st <;> cases htc : taggedContains tg r.head_sha <;>
      cases hold : isTooOld now r <;> simp [classifyRun, htc, hold]
  · intro tg now r
    simp [classifyRun, taggedContains]

theorem run_level_filter_witness :
    classifyRun true (some ["s"]) 0 ⟨1, "s", 0⟩ = RunDecision.skipTagged :=
  (run_level_filter.2.1 true (some ["s"]) 0 ⟨1, "s", 0⟩).mpr
    ⟨rfl, by with_unfolding_all rfl⟩

/-- C5 as stated is false: the configuration also accepts skip-recent values
that are numbers but not non-negative integers.  Here `"-7"` is supplied and
parses to the negative number `-7`, yet resolution succeeds. -/
theorem skip_recent_negative_accepted :
    (getConfigs 0 ⟨"o/r", "30 days", "", "-7"⟩).map Configs.skipRecent = .ok (-7) ∧
    ((-7 : ℚ) < 0) := by
  constructor
  · with_unfolding_all rfl
  · norm_num

/-- C5 (amended): configuration resolution fails with the script's error
message exactly for non-empty skip-recent inputs that coerce to `NaN`; any
input coercing to a number — negative or fractional included — is accepted
with that value; an empty/absent skip-recent resolves to zero, leaving the
recent-count exclusion rule inactive. -/
theorem skip_recent_validation (now : ℚ) (inp : RawInputs) :
    (inp.skipRecent ≠ "" → jsNumber inp.skipRecent = none →
        getConfigs now inp = .error "skip-recent option must be type of number.") ∧
    (∀ q : ℚ, jsNumber inp.skipRecent = some q →
        (getConfigs now inp).map Configs.skipRecent = .ok q) ∧
    (inp.skipRecent = "" → (getConfigs now inp).map Configs.skipRecent = .ok 0) ∧
    (∀ (m : Option ℚ) (c : ℕ) (a : Artifact),
        artifactDecision 0 m c a = (momentIsBefore (some a.created_at) m, c)) := by
  refine ⟨?_, fun q hq => getConfigs_skipRecent_some now inp q hq, ?_, ?_⟩
  · intro hne hnan
    simp [getConfigs, hne, hnan]
  · intro he
    have h0 : jsNumber inp.skipRecent = some 0 := by
      rw [he]; with_unfolding_all rfl
    exact getConfigs_skipRecent_some now inp 0 h0
  · intro m c a
    simp [artifactDecision]

theorem skip_recent_validation_witness :
    getConfigs 0 ⟨"o/r", "1 days", "", "abc"⟩ =
      .error "skip-recent option must be type of number." :=
  (skip_recent_validation 0 ⟨"o/r", "1 days", "", "abc"⟩).1
    (by decide) (by with_unfolding_all rfl)

/-- C6 as stated is false: an age input whose tokens cannot be parsed as a
duration (`"foo days"` — a `NaN` amount) does not make configuration
resolution fail; it resolves successfully. -/
theorem age_unparseable_no_failure :
    (getConfigs 0 ⟨"o/r", "foo days", "", ""⟩).isOk = true := by
  with_unfolding_all rfl

/-- C6 (amended): configuration resolution never fails on the age input —
`moment` propagates no error; an amount coercing to `NaN` on a recognised
unit makes the subtraction a no-op, so the computed cutoff equals the
resolution instant itself, under which the age filter then selects exactly
the artifacts created strictly before that instant (effectively every
already-existing artifact). -/
theorem age_parse_never_fails (now : ℚ) (repoS ageS tagsS : String) :
    (getConfigs now ⟨repoS, ageS, tagsS, ""⟩).isOk = true ∧
    (getConfigs now ⟨repoS, "foo days", tagsS, ""⟩).map Configs.maxAge =
      .ok (some now) ∧
    (∀ a : Artifact, ageSelected (some now) a = decide (a.created_at < now)) := by
  refine ⟨?_, ?_, ?_⟩
  · simp only [getConfigs]
    rw [if_neg (by simp)]
    rfl
  · simp [getConfigs, Except.map]
    with_unfolding_all rfl
  · intro a
    rfl

/-- C7: per-artifact deletion failures are logged and swallowed: whichever
deletions fail, the invocation's success, the examined runs, and the full
set of attempted deletions (in the same and in other runs) are unchanged. -/
theorem delete_failures_swallowed (w : World) (d₁ d₂ : ℕ → Bool) :
    stripDelete (run { w with deleteResult := d₁ }) =
      stripDelete (run { w with deleteResult := d₂ }) ∧
    (run { w with deleteResult := d₁ }).isOk =
      (run { w with deleteResult := d₂ }).isOk := by
  have h := run_stripDelete w d₁ d₂
  refine ⟨h, ?_⟩
  rw [← stripDelete_isOk, h, stripDelete_isOk]

/-- C8: an uncaught failure (configuration, tag listing, run listing, or
artifact listing) makes the process report the error string and exit
non-zero; with all of those stages succeeding the invocation succeeds —
deletion failures cannot fail it — and the process exits zero. -/
theorem process_exit_behavior (w : World) :
    (∀ e : String, run w = .error e → processExit w = some e) ∧
    ((run w).isOk = true → processExit w = none) ∧
    (∀ (cfg : Configs) (tagged : Option (List String))
        (pages : List (List WorkflowRun)),
        getConfigs w.now w.inputs = .ok cfg →
        tagsStage cfg w.tagsResult = .ok tagged →
        w.runPages = .ok pages →
        (∀ r ∈ keptRunsCalc cfg.skipTags tagged w.now pages,
            (w.artifactsResult r.id).isOk = true) →
        (run w).isOk = true) := by
  refine ⟨?_, ?_, fun cfg tagged pages hc ht hp ha =>
    run_isOk_of w cfg tagged pages hc ht hp ha⟩
  · intro e he
    simp [processExit, he]
  · intro hok
    cases hr : run w with
    | error e => rw [hr] at hok; simp [Except.isOk, Except.toBool] at hok
    | ok t => simp [processExit, hr]

theorem process_exit_behavior_witness :
    (run ⟨⟨"o/r", "30 days", "", ""⟩, 0, .ok [], .ok [],
        fun _ => .ok [], fun _ => true⟩).isOk = true :=
  (process_exit_behavior _).2.2
    ⟨some "o", some "r", 100, some (-2592000000), false, 0, true, "master"⟩
    none []
    (by with_unfolding_all rfl)
    (by with_unfolding_all rfl)
    rfl
    (by simp [keptRunsCalc, paginateUntil])

/-- C9: the shared skipped-recent counter starts at zero, changes by exactly
one per artifact excluded by the recent-count rule (and only then), never
exceeds the configured `N`, and the total number of artifacts excluded over
the whole scan is `min N (total artifacts discovered)`. -/
theorem skip_counter_budget (N : ℕ) (m : Option ℚ) (ls : List (List Artifact)) :
    (scanRuns (N : ℚ) m ls 0).2 = min N ls.flatten.length ∧
    (scanRuns (N : ℚ) m ls 0).2 ≤ N ∧
    ∀ (c : ℕ) (a : Artifact),
      (artifactDecision (N : ℚ) m c a).2 = if c < N then c + 1 else c := by
  have htotal : (scanRuns (N : ℚ) m ls 0).2 = min N ls.flatten.length := by
    obtain ⟨-, h2⟩ := scanRuns_flatten (N : ℚ) m ls 0
    rw [h2, filterArtifacts_nat N m ls.flatten 0 (Nat.zero_le N)]
    simp
  refine ⟨htotal, ?_, ?_⟩
  · rw [htotal]; exact Nat.min_le_left _ _
  · intro c a
    simp only [artifactDecision, ne_eq, Nat.cast_eq_zero, Nat.cast_lt]
    by_cases h : c < N
    · rw [if_pos ⟨by omega, h⟩, if_pos h]
    · rw [if_neg (fun hx => h hx.2), if_neg h]

/-- C10: configuration resolution accepts any skip-recent input coercing to
a number, negative and fractional values included; a negative skip-recent
makes the recent-count rule exclude zero artifacts — every artifact goes to
the age filter and the counter never moves. -/
theorem skip_recent_lenient :
    (∀ (now : ℚ) (inp : RawInputs) (q : ℚ), jsNumber inp.skipRecent = some q →
        (getConfigs now inp).map Configs.skipRecent = .ok q) ∧
    ((getConfigs 0 ⟨"o/r", "30 days", "", "-2.5"⟩).map Configs.skipRecent =
        .ok (-(5 / 2))) ∧
    (∀ (q : ℚ) (m : Option ℚ) (ls : List (List Artifact)) (c : ℕ), q < 0 →
        scanRuns q m ls c = (ls.map (fun l => l.filter (ageSelected m)), c)) := by
  refine ⟨fun now inp q hq => getConfigs_skipRecent_some now inp q hq, ?_, ?_⟩
  · with_unfolding_all rfl
  · intro q m ls c hq
    induction ls generalizing c with
    | nil => simp [scanRuns]
    | cons l rest ih =>
      have hle : q ≤ (c : ℚ) := le_trans (le_of_lt hq) (by positivity)
      simp [scanRuns, filterArtifacts_ge q m l c hle, ih]

theorem skip_recent_lenient_witness :
    (getConfigs 0 ⟨"o/r", "30 days", "", "-3"⟩).map Configs.skipRecent = .ok (-3) ∧
    scanRuns (-3) none [[⟨1, "a", 0⟩]] 0 = ([[]], 0) := by
  refine ⟨skip_recent_lenient.1 0 ⟨"o/r", "30 days", "", "-3"⟩ (-3)
    (by with_unfolding_all rfl), ?_⟩
  rw [skip_recent_lenient.2.2 (-3) none [[⟨1, "a", 0⟩]] 0 (by norm_num)]
  with_unfolding_all rfl
